import Mathlib

/-!
Verification of the `saoip.py` network scanner (directory `python/saoip`).

The program is shallowly embedded: every definition below translates a
function of `saoip.py`, or the fragment of a Python standard-library
routine (`int`, `str.split`, `ipaddress.ip_address`, `ipaddress.ip_network`
with `strict=False`, `IPv4Network.hosts`) that `saoip.py` invokes.

Modelling conventions:
  * IPv4 addresses are natural numbers below 2^32; the embedding covers the
    IPv4 fragment of the `ipaddress` module, which is the fragment every
    claim about this program exercises.
  * Python `int` values are Lean `Int`; Python `float` time stamps are
    Lean `Rat` (no claim depends on IEEE rounding).
  * A Python function that may raise `ValueError` becomes a Lean function
    into `Option` (`none` = the exception escapes to the caller).
  * The effectful probes `ping_ip` / `tcp_connect` read an explicit
    environment record holding everything the outside world decides:
    the subprocess return code, the `connect_ex` result, the two clock
    readings, and whether some call in the `try` block raised.
-/

namespace Saoip

/-- Characters treated as whitespace by Python `int(str)` (`str.strip`). -/
def isPySpace (c : Char) : Bool :=
  c == ' ' || c == '\t' || c == '\n' || c == '\r' || c == '\x0b' || c == '\x0c'

/-- Python `s.split(sep)` for a one-character separator `sep`, on the
character list of `s`.  Always returns a non-empty list of pieces; empty
pieces appear around adjacent separators, exactly as in Python. -/
def splitOnChar (sep : Char) : List Char → List (List Char)
  | [] => [[]]
  | c :: cs =>
    if c = sep then
      [] :: splitOnChar sep cs
    else
      match splitOnChar sep cs with
      | r :: rs => (c :: r) :: rs
      | [] => [[c]]

/-- Strip leading and trailing Python whitespace (used by `int(str)`). -/
def trimWs (cs : List Char) : List Char :=
  ((cs.dropWhile isPySpace).reverse.dropWhile isPySpace).reverse

/-- Numeric value of a list of decimal digit characters. -/
def digitsVal (cs : List Char) : Nat :=
  cs.foldl (fun acc c => 10 * acc + (c.toNat - 48)) 0

/-- Non-empty string of ASCII decimal digits. -/
def isDigits (cs : List Char) : Bool :=
  !cs.isEmpty && cs.all Char.isDigit

/-- Python `int(str)`: optional surrounding whitespace, an optional sign,
then a non-empty run of decimal digits; anything else raises `ValueError`
(= `none`).  (Underscore digit grouping, a Python nicety no claim touches,
is outside the modelled fragment.) -/
def pyIntChars? (cs : List Char) : Option Int :=
  match trimWs cs with
  | '-' :: ds => if isDigits ds then some (-(digitsVal ds : Int)) else none
  | '+' :: ds => if isDigits ds then some ((digitsVal ds : Int)) else none
  | ds => if isDigits ds then some ((digitsVal ds : Int)) else none

/-- Python `range(a, b)` as a list: `a, a+1, ..., b-1`, empty when `b ≤ a`. -/
def pyRange (a b : Int) : List Int :=
  (List.range (b - a).toNat).map (fun (i : Nat) => a + (i : Int))

/-- The `for part in port_str.split(",")` loop of `parse_ports`
(saoip.py lines 39-49), carrying the accumulated `ports` list.
`none` is the `ValueError` that `int` or tuple unpacking may raise. -/
def parse_ports_loop : List (List Char) → List Int → Option (List Int)
  | [], ports => some ports
  | part :: rest, ports =>
    if part.contains '-' then
      match splitOnChar '-' part with
      | [s, e] =>
        match pyIntChars? s, pyIntChars? e with
        | some a, some b => parse_ports_loop rest (ports ++ pyRange a (b + 1))
        | _, _ => none
      | _ => none
    else
      match pyIntChars? part with
      | some n => parse_ports_loop rest (ports ++ [n])
      | none => none

/-- `parse_ports(port_str)` of saoip.py: split on commas, expand `A-B`
tokens with `range(int(A), int(B)+1)`, collect single ports with `int`. -/
def parse_ports (port_str : String) : Option (List Int) :=
  parse_ports_loop (splitOnChar ',' port_str.data) []

/-- One dotted-quad octet, as accepted by `ipaddress`: one to three ASCII
digits, no leading zero, value at most 255. -/
def pyOctet? (cs : List Char) : Option Nat :=
  if isDigits cs ∧ cs.length ≤ 3 then
    if 1 < cs.length ∧ cs.head? = some '0' then none
    else if digitsVal cs ≤ 255 then some (digitsVal cs) else none
  else none

/-- `ipaddress.ip_address(s)` (IPv4 fragment): exactly four octets joined
by dots; result is the 32-bit numeric value of the address. -/
def ip_address_chars? (cs : List Char) : Option Nat :=
  match splitOnChar '.' cs with
  | [p1, p2, p3, p4] =>
    match pyOctet? p1, pyOctet? p2, pyOctet? p3, pyOctet? p4 with
    | some a, some b, some c, some d => some (((a * 256 + b) * 256 + c) * 256 + d)
    | _, _, _, _ => none
  | _ => none

/-- String-level wrapper for `ipaddress.ip_address` (IPv4 fragment). -/
def ip_address? (s : String) : Option Nat :=
  ip_address_chars? s.data

/-- An IPv4 prefix length string: ASCII digits only (no sign, no
whitespace), value at most 32 (`ipaddress` netmask parsing). -/
def prefixLen? (cs : List Char) : Option Nat :=
  if isDigits cs ∧ digitsVal cs ≤ 32 then some (digitsVal cs) else none

/-- Clear the host bits of `ip` under prefix length `pl`: the
`strict=False` behaviour of `ipaddress.ip_network`. -/
def maskAddr (ip pl : Nat) : Nat :=
  2 ^ (32 - pl) * (ip / 2 ^ (32 - pl))

/-- `ipaddress.ip_network(s, strict=False)` (IPv4, prefix-length netmask
form): at most one `/`; a bare address is a `/32`; host bits below the
prefix are cleared rather than rejected.  Returns the (network address,
prefix length) pair. -/
def ip_network_chars? (cs : List Char) : Option (Nat × Nat) :=
  match splitOnChar '/' cs with
  | [a] => (ip_address_chars? a).map (fun ip => (ip, 32))
  | [a, p] =>
    match ip_address_chars? a, prefixLen? p with
    | some ip, some pl => some (maskAddr ip pl, pl)
    | _, _ => none
  | _ => none

/-- String-level wrapper for `ipaddress.ip_network(s, strict=False)`. -/
def ip_network? (s : String) : Option (Nat × Nat) :=
  ip_network_chars? s.data

/-- `IPv4Network.hosts()`: all usable host addresses of the block — the
block minus network and broadcast address for prefixes up to /30, both
addresses of a /31, the single address of a /32 (CPython special-cases
the last two in `IPv4Network.__init__`). -/
def hosts (net pl : Nat) : List Nat :=
  if pl = 32 then [net]
  else if pl = 31 then [net, net + 1]
  else (List.range (2 ^ (32 - pl) - 2)).map (fun i => net + 1 + i)

/-- `parse_ip_range(ip_str)` of saoip.py (lines 128-150): try
`ip_network(ip_str, strict=False).hosts()`, fall back to a single
`ip_address`, and on double failure print the invalid-format error and
return the empty list. -/
def parse_ip_range (ip_str : String) : List Nat :=
  match ip_network? ip_str with
  | some (net, pl) => hosts net pl
  | none =>
    match ip_address? ip_str with
    | some ip => [ip]
    | none => []

/-- Everything the outside world decides during one `ping_ip` call
(saoip.py lines 52-88): the two `time.time()` readings, the subprocess
return code, and whether some call inside the `try` block raised. -/
structure PingEnv where
  raises : Bool
  returncode : Int
  startTime : Rat
  endTime : Rat
deriving DecidableEq

/-- Everything the outside world decides during one `tcp_connect` call
(saoip.py lines 91-125): the clock readings, the `connect_ex` error
code, and whether some call inside the `try` block raised. -/
structure TcpEnv where
  raises : Bool
  connectResult : Int
  startTime : Rat
  endTime : Rat
deriving DecidableEq

/-- The command line `ping_ip` builds (saoip.py lines 65-70); it is the
only place the address and timeout arguments flow into. -/
def ping_cmd (isWindows : Bool) (ip : String) (timeout : Int) : List String :=
  if isWindows then
    [r"ping", r"-n", r"1", r"-w", toString (timeout * 1000), ip]
  else
    [r"ping", r"-c", r"1", r"-W", toString timeout, ip]

/-- `ping_ip` (saoip.py lines 52-88): run the ping subprocess, measure the
elapsed wall-clock time in milliseconds, return `(True, response_time)`
on return code 0 and `(False, None)` otherwise; any exception raised
inside the `try` block is caught and mapped to `(False, None)`. -/
def ping_ip (env : PingEnv) : Bool × Option Rat :=
  if env.raises then (false, none)
  else
    let response_time := (env.endTime - env.startTime) * 1000
    if env.returncode = 0 then (true, some response_time) else (false, none)

/-- `tcp_connect` (saoip.py lines 91-125): open a TCP socket with the
given timeout, call `connect_ex`, measure the elapsed time in
milliseconds, return `(True, response_time)` when `connect_ex` yielded 0
and `(False, None)` otherwise; any exception raised inside the `try`
block is caught and mapped to `(False, None)`. -/
def tcp_connect (env : TcpEnv) : Bool × Option Rat :=
  if env.raises then (false, none)
  else
    let response_time := (env.endTime - env.startTime) * 1000
    if env.connectResult = 0 then (true, some response_time) else (false, none)

/-- `scan_icmp_worker(ip)` (saoip.py lines 153-163): run `ping_ip` and
print the result line exactly when the probe reported the host alive.
The printed line carries the address and the probe's response time; a
`none` return is "nothing printed". -/
def scan_icmp_worker (ip : Nat) (env : PingEnv) : Option (Nat × Option Rat) :=
  let r := ping_ip env
  if r.1 then some (ip, r.2) else none

/-- `scan_tcp_worker(ip, port)` (saoip.py lines 166-177): run
`tcp_connect` and print the result line exactly when the port was open. -/
def scan_tcp_worker (ip : Nat) (port : Int) (env : TcpEnv) : Option (Nat × Int × Option Rat) :=
  let r := tcp_connect env
  if r.1 then some (ip, port, r.2) else none

/-- Which probe a submitted task runs: `scan_icmp_worker` dispatches the
reachability (ICMP) probe `ping_ip`; `scan_tcp_worker` dispatches the
connect (TCP) probe `tcp_connect`. -/
inductive ProbeKind where
  | icmp
  | tcp
deriving DecidableEq

/-- One submitted unit of scan work: the future created by
`executor.submit` in `scan_icmp` (line 193) or `scan_tcp` (lines
217-221), with the worker it runs and that worker's arguments. -/
structure ProbeTask where
  addr : Nat
  port : Option Int
  kind : ProbeKind
deriving DecidableEq

/-- The task set `scan_icmp` submits (saoip.py line 193): one
`scan_icmp_worker` future per address, in list order. -/
def scan_icmp_tasks (ips : List Nat) : List ProbeTask :=
  ips.map (fun ip => ⟨ip, none, ProbeKind.icmp⟩)

/-- The task set `scan_tcp` submits (saoip.py lines 217-221): one
`scan_tcp_worker` future per (address, port) pair of the comprehension
`for ip in ips for port in ports`. -/
def scan_tcp_tasks (ips : List Nat) (ports : List Int) : List ProbeTask :=
  ips.flatMap (fun ip => ports.map (fun port => ⟨ip, some port, ProbeKind.tcp⟩))

/-- The lines `scan_icmp(ips)` prints (saoip.py lines 180-200), given per
address the environment its probe runs in.  The pool runs every worker
and drains every future; a worker prints exactly when its probe
succeeded, so the surfaced results are the `filterMap` of the workers
over the submitted tasks (listed here in submission order; completion
order is a permutation of it). -/
def scan_icmp (ips : List Nat) (envOf : Nat → PingEnv) : List (Nat × Option Rat) :=
  ips.filterMap (fun ip => scan_icmp_worker ip (envOf ip))

/-- The (address, port) pairs of `scan_tcp`'s comprehension. -/
def scan_tcp_pairs (ips : List Nat) (ports : List Int) : List (Nat × Int) :=
  ips.flatMap (fun ip => ports.map (fun port => (ip, port)))

/-- The lines `scan_tcp(ips, ports)` prints (saoip.py lines 203-228),
given per (address, port) pair the environment its probe runs in. -/
def scan_tcp (ips : List Nat) (ports : List Int) (envOf : Nat × Int → TcpEnv) :
    List (Nat × Int × Option Rat) :=
  (scan_tcp_pairs ips ports).filterMap
    (fun ip_port => scan_tcp_worker ip_port.1 ip_port.2 (envOf ip_port))

/-- The task set `main()` (saoip.py lines 231-278) submits for a given
argument vector `argv` (`argv[0]` is the program name).  Fewer than two
arguments prints usage and submits nothing; an unparseable or empty
address list aborts before any scan; with two arguments `scan_icmp`
runs; with three, `parse_ports` runs first and a `ValueError` or an
empty port list aborts before `scan_tcp`; more arguments is an error. -/
def main_tasks : List String → List ProbeTask
  | _prog :: ip_str :: rest =>
    let ips := parse_ip_range ip_str
    if ips.isEmpty then []
    else
      match rest with
      | [] => scan_icmp_tasks ips
      | [port_str] =>
        match parse_ports port_str with
        | none => []
        | some ports => if ports.isEmpty then [] else scan_tcp_tasks ips ports
      | _ => []
  | _ => []

/-! ### Lemmas about the splitting primitive -/

theorem splitOnChar_ne_nil (sep : Char) (cs : List Char) : splitOnChar sep cs ≠ [] := by
  induction cs with
  | nil => simp [splitOnChar]
  | cons c cs ih =>
    by_cases h : c = sep
    · simp [splitOnChar, h]
    · simp only [splitOnChar, if_neg h]
      cases hs : splitOnChar sep cs with
      | nil => simp
      | cons r rs => simp

theorem splitOnChar_of_not_mem (sep : Char) (cs : List Char) (h : sep ∉ cs) :
    splitOnChar sep cs = [cs] := by
  induction cs with
  | nil => rfl
  | cons c cs ih =>
    have hc : ¬ c = sep := fun hcs => h (hcs ▸ List.mem_cons_self c cs)
    have hcs : sep ∉ cs := fun hm => h (List.mem_cons_of_mem c hm)
    simp [splitOnChar, hc, ih hcs]

theorem splitOnChar_append (sep : Char) (xs ys : List Char) :
    splitOnChar sep (xs ++ sep :: ys) = splitOnChar sep xs ++ splitOnChar sep ys := by
  induction xs with
  | nil => simp [splitOnChar]
  | cons c xs ih =>
    by_cases h : c = sep
    · simp [splitOnChar, h, ih]
    · simp only [List.cons_append, splitOnChar, if_neg h, List.append_eq]
      rw [ih]
      cases hs : splitOnChar sep xs with
      | nil => exact absurd hs (splitOnChar_ne_nil sep xs)
      | cons r rs => simp

theorem mem_splitOnChar_of_mem (sep : Char) (cs : List Char) (c : Char) (h : c ∈ cs) :
    c = sep ∨ ∃ p ∈ splitOnChar sep cs, c ∈ p := by
  induction cs with
  | nil => cases h
  | cons d cs ih =>
    by_cases hd : d = sep
    · rcases List.mem_cons.mp h with h1 | h2
      · exact Or.inl (h1.trans hd)
      · rcases ih h2 with h3 | ⟨p, hp, hcp⟩
        · exact Or.inl h3
        · refine Or.inr ⟨p, ?_, hcp⟩
          simp [splitOnChar, hd, hp]
    · simp only [splitOnChar, if_neg hd]
      cases hs : splitOnChar sep cs with
      | nil => exact absurd hs (splitOnChar_ne_nil sep cs)
      | cons r rs =>
        rcases List.mem_cons.mp h with h1 | h2
        · exact Or.inr ⟨d :: r, List.mem_cons_self _ _, h1 ▸ List.mem_cons_self _ _⟩
        · rcases ih h2 with h3 | ⟨p, hp, hcp⟩
          · exact Or.inl h3
          · rw [hs] at hp
            rcases List.mem_cons.mp hp with h4 | h5
            · exact Or.inr ⟨d :: r, List.mem_cons_self _ _,
                List.mem_cons_of_mem d (h4 ▸ hcp)⟩
            · exact Or.inr ⟨p, List.mem_cons_of_mem _ h5, hcp⟩

/-! ### Lemmas about port resolution -/

theorem parse_ports_loop_cons_bad (part : List Char) (rest : List (List Char))
    (acc : List Int) (hc : part.contains '-' = true)
    (hs : ∀ s e : List Char, splitOnChar '-' part ≠ [s, e]) :
    parse_ports_loop (part :: rest) acc = none := by
  simp only [parse_ports_loop, hc, if_true]

theorem parse_ports_loop_cons_range (part : List Char) (rest : List (List Char))
    (acc : List Int) (s e : List Char)
    (hc : part.contains '-' = true) (hs : splitOnChar '-' part = [s, e]) :
    parse_ports_loop (part :: rest) acc =
      (match pyIntChars? s, pyIntChars? e with
      | some a, some b => parse_ports_loop rest (acc ++ pyRange a (b + 1))
      | _, _ => none) := by
  simp only [parse_ports_loop, hc, if_true, hs]

theorem parse_ports_loop_cons_single (part : List Char) (rest : List (List Char))
    (acc : List Int) (hc : part.contains '-' = false) :
    parse_ports_loop (part :: rest) acc =
      (match pyIntChars? part with
      | some n => parse_ports_loop rest (acc ++ [n])
      | none => none) := by
  simp only [parse_ports_loop, hc, Bool.false_eq_true, if_false]

theorem parse_ports_loop_acc (parts : List (List Char)) :
    ∀ acc, parse_ports_loop parts acc
      = (parse_ports_loop parts []).map (fun r => acc ++ r) := by
  induction parts with
  | nil => intro acc; simp [parse_ports_loop]
  | cons part rest ih =>
    intro acc
    by_cases hc : part.contains '-'
    · by_cases h2 : ∃ s e : List Char, splitOnChar '-' part = [s, e]
      · obtain ⟨s, e, hse⟩ := h2
        rw [parse_ports_loop_cons_range part rest acc s e hc hse,
          parse_ports_loop_cons_range part rest [] s e hc hse]
        cases ha : pyIntChars? s with
        | none => rfl
        | some a =>
          cases hb : pyIntChars? e with
          | none => rfl
          | some b =>
            simp only [List.nil_append]
            rw [ih (acc ++ pyRange a (b + 1)), ih (pyRange a (b + 1))]
            cases parse_ports_loop rest [] <;> simp [List.append_assoc]
      · push_neg at h2
        rw [parse_ports_loop_cons_bad part rest acc hc h2,
          parse_ports_loop_cons_bad part rest [] hc h2]
        rfl
    · rw [parse_ports_loop_cons_single part rest acc (Bool.not_eq_true _ ▸ hc),
        parse_ports_loop_cons_single part rest [] (Bool.not_eq_true _ ▸ hc)]
      cases hn : pyIntChars? part with
      | none => rfl
      | some n =>
        simp only [List.nil_append]
        rw [ih (acc ++ [n]), ih [n]]
        cases parse_ports_loop rest [] <;> simp [List.append_assoc]

theorem parse_ports_loop_append (l₁ l₂ : List (List Char)) :
    parse_ports_loop (l₁ ++ l₂) []
      = (parse_ports_loop l₁ []).bind
          (fun r₁ => (parse_ports_loop l₂ []).map (fun r₂ => r₁ ++ r₂)) := by
  induction l₁ with
  | nil =>
    simp only [List.nil_append, parse_ports_loop, Option.some_bind]
    cases parse_ports_loop l₂ [] <;> simp
  | cons part rest ih =>
    by_cases hc : part.contains '-'
    · by_cases h2 : ∃ s e : List Char, splitOnChar '-' part = [s, e]
      · obtain ⟨s, e, hse⟩ := h2
        rw [List.cons_append,
          parse_ports_loop_cons_range part (rest ++ l₂) [] s e hc hse,
          parse_ports_loop_cons_range part rest [] s e hc hse]
        cases ha : pyIntChars? s with
        | none => rfl
        | some a =>
          cases hb : pyIntChars? e with
          | none => rfl
          | some b =>
            simp only [List.nil_append]
            rw [parse_ports_loop_acc (rest ++ l₂) (pyRange a (b + 1)), ih,
              parse_ports_loop_acc rest (pyRange a (b + 1))]
            cases parse_ports_loop rest [] with
            | none => rfl
            | some r =>
              cases parse_ports_loop l₂ [] <;> simp [List.append_assoc]
      · push_neg at h2
        rw [List.cons_append,
          parse_ports_loop_cons_bad part (rest ++ l₂) [] hc h2,
          parse_ports_loop_cons_bad part rest [] hc h2]
        rfl
    · rw [List.cons_append,
        parse_ports_loop_cons_single part (rest ++ l₂) [] (Bool.not_eq_true _ ▸ hc),
        parse_ports_loop_cons_single part rest [] (Bool.not_eq_true _ ▸ hc)]
      cases hn : pyIntChars? part with
      | none => rfl
      | some n =>
        simp only [List.nil_append]
        rw [parse_ports_loop_acc (rest ++ l₂) [n], ih,
          parse_ports_loop_acc rest [n]]
        cases parse_ports_loop rest [] with
        | none => rfl
        | some r =>
          cases parse_ports_loop l₂ [] <;> simp [List.append_assoc]

/-- Concatenating two port expressions with a comma concatenates their
resolutions, in order, keeping duplicates. -/
theorem parse_ports_append (s t : String) (ps qs : List Int)
    (hs : parse_ports s = some ps) (ht : parse_ports t = some qs) :
    parse_ports (s ++ r"," ++ t) = some (ps ++ qs) := by
  unfold parse_ports at *
  have hdata : (s ++ r"," ++ t).data = s.data ++ ',' :: t.data := by
    simp [String.data_append]
  rw [hdata, splitOnChar_append, parse_ports_loop_append, hs, ht]
  rfl

theorem pyRange_length (a b : Int) (h : a ≤ b) :
    (pyRange a (b + 1)).length = (b - a + 1).toNat := by
  unfold pyRange
  rw [List.length_map, List.length_range]
  omega

theorem pyRange_mem (a b x : Int) :
    x ∈ pyRange a (b + 1) ↔ a ≤ x ∧ x ≤ b := by
  unfold pyRange
  rw [List.mem_map]
  constructor
  · rintro ⟨i, hi, rfl⟩
    rw [List.mem_range] at hi
    omega
  · rintro ⟨h1, h2⟩
    refine ⟨(x - a).toNat, ?_, by omega⟩
    rw [List.mem_range]
    omega

theorem pyRange_sorted (a b : Int) : List.Sorted (· < ·) (pyRange a (b + 1)) := by
  unfold pyRange
  refine List.Pairwise.map (fun i : Nat => a + (i : Int)) ?_ (List.sorted_lt_range _)
  intro i j hij
  show a + (i : Int) < a + (j : Int)
  omega

theorem pyRange_head (a b : Int) (h : a ≤ b) :
    (pyRange a (b + 1)).head? = some a := by
  unfold pyRange
  have hn : (b + 1 - a).toNat = (b - a).toNat + 1 := by omega
  rw [hn, List.range_succ_eq_map]
  simp

/-- A well-formed range token `u-v` (plain numeric halves, so no `-` or
`,` inside either half) resolves to Python `range(int(u), int(v)+1)`. -/
theorem parse_ports_range_token (u v : List Char) (a b : Int)
    (hu : pyIntChars? u = some a) (hv : pyIntChars? v = some b)
    (hnu : '-' ∉ u) (hnv : '-' ∉ v) (hcu : ',' ∉ u) (hcv : ',' ∉ v) :
    parse_ports (String.mk (u ++ '-' :: v)) = some (pyRange a (b + 1)) := by
  unfold parse_ports
  show parse_ports_loop (splitOnChar ',' (u ++ '-' :: v)) [] = _
  have hcomma : ',' ∉ u ++ '-' :: v := by
    intro hm
    rcases List.mem_append.mp hm with h1 | h2
    · exact hcu h1
    · rcases List.mem_cons.mp h2 with h3 | h4
      · exact absurd h3 (by decide)
      · exact hcv h4
  rw [splitOnChar_of_not_mem ',' _ hcomma]
  have hdash : (u ++ '-' :: v).contains '-' = true :=
    List.elem_eq_true_of_mem (List.mem_append.mpr (Or.inr (List.mem_cons_self _ _)))
  have hsplit : splitOnChar '-' (u ++ '-' :: v) = [u, v] := by
    rw [splitOnChar_append, splitOnChar_of_not_mem '-' u hnu,
      splitOnChar_of_not_mem '-' v hnv]
    rfl
  rw [parse_ports_loop_cons_range (u ++ '-' :: v) [] [] u v hdash hsplit, hu, hv]
  rfl

/--
Claim C3: for port expressions of comma-separated tokens whose range
tokens `A-B` have `A ≤ B`, `parse_ports` resolves in token order —
joining two expressions with a comma concatenates their resolutions,
duplicates preserved — and a range token expands ascending to exactly
`B-A+1` values starting at `A`; concretely,
`parse_ports "80,443,8000-8002" = [80, 443, 8000, 8001, 8002]` and a
duplicated token is kept twice.
-/
theorem C3_port_resolution
    (s t : String) (ps qs : List Int)
    (hs : parse_ports s = some ps) (ht : parse_ports t = some qs)
    (u v : List Char) (a b : Int)
    (hu : pyIntChars? u = some a) (hv : pyIntChars? v = some b) (hab : a ≤ b)
    (hnu : '-' ∉ u) (hnv : '-' ∉ v) (hcu : ',' ∉ u) (hcv : ',' ∉ v) :
    parse_ports (s ++ r"," ++ t) = some (ps ++ qs)
    ∧ parse_ports (String.mk (u ++ '-' :: v)) = some (pyRange a (b + 1))
    ∧ (pyRange a (b + 1)).length = (b - a + 1).toNat
    ∧ (pyRange a (b + 1)).head? = some a
    ∧ (∀ x : Int, x ∈ pyRange a (b + 1) ↔ a ≤ x ∧ x ≤ b)
    ∧ List.Sorted (· < ·) (pyRange a (b + 1))
    ∧ parse_ports (r"80,443,8000-8002") = some [80, 443, 8000, 8001, 8002]
    ∧ parse_ports (r"80,80") = some [80, 80] :=
  ⟨parse_ports_append s t ps qs hs ht,
   parse_ports_range_token u v a b hu hv hnu hnv hcu hcv,
   pyRange_length a b hab,
   pyRange_head a b hab,
   fun x => pyRange_mem a b x,
   pyRange_sorted a b,
   by decide,
   by decide⟩

/-- Claim C3, instantiated: the expressions `"80"` and `"443"` joined by a
comma resolve to `[80, 443]`, and the range token `8000-8002` resolves to
`range(8000, 8003)`, of length 3 and first element 8000. -/
theorem C3_port_resolution_witness :
    parse_ports (r"80,443") = some ([80] ++ [443])
    ∧ parse_ports (String.mk (['8', '0', '0', '0'] ++ '-' :: ['8', '0', '0', '2']))
        = some (pyRange 8000 (8002 + 1))
    ∧ (pyRange 8000 (8002 + 1)).length = ((8002 : Int) - 8000 + 1).toNat
    ∧ (pyRange 8000 (8002 + 1)).head? = some 8000 := by
  have h := C3_port_resolution (r"80") (r"443") [80] [443]
    (by decide) (by decide)
    ['8', '0', '0', '0'] ['8', '0', '0', '2'] 8000 8002
    (by decide) (by decide) (by decide)
    (by decide) (by decide) (by decide) (by decide)
  exact ⟨h.1, h.2.1, h.2.2.1, h.2.2.2.1⟩

/--
Claim C4 counterexample: the claim says a port token outside [0, 65535]
makes `parse_ports` fail with no port list and no task dispatched; on the
code, `parse_ports "70000"` succeeds with `[70000]` (there is no range
check in saoip.py lines 39-49) and `main` dispatches a connect task for
port 70000 against 127.0.0.1.
-/
theorem C4_counterexample :
    parse_ports (r"70000") = some [70000]
    ∧ ((some [70000] : Option (List Int)) ≠ none)
    ∧ main_tasks [r"saoip.py", r"127.0.0.1", r"70000"]
        = [⟨2130706433, some 70000, ProbeKind.tcp⟩] := by
  refine ⟨by decide, by decide, by decide⟩

/--
Claim C4 amended: `parse_ports` performs no range validation at all — a
token whose value lies outside [0, 65535], such as `"70000"`, is accepted
and resolved to `[70000]`, and the scan dispatches a connect task for it
(the probe itself then fails at connect time, caught by `tcp_connect`'s
exception handler).
-/
theorem C4_no_range_check :
    parse_ports (r"70000") = some [70000]
    ∧ (65535 : Int) < 70000
    ∧ main_tasks [r"saoip.py", r"127.0.0.1", r"70000"]
        = [⟨2130706433, some 70000, ProbeKind.tcp⟩] := by
  refine ⟨by decide, by decide, by decide⟩

/--
Claim C5 counterexample: the claim says any port expression containing a
range token `A-B` with `A > B` fails with `InvalidPortFormat` and
dispatches nothing; on the code `parse_ports "100-50"` does not raise —
Python `range(100, 51)` is simply empty, so it returns `[]` — and the
expression `"80,100-50"` resolves to `[80]` and dispatches a task for
port 80.
-/
theorem C5_counterexample :
    parse_ports (r"100-50") = some []
    ∧ ((some [] : Option (List Int)) ≠ none)
    ∧ parse_ports (r"80,100-50") = some [80]
    ∧ main_tasks [r"saoip.py", r"127.0.0.1", r"80,100-50"]
        = [⟨2130706433, some 80, ProbeKind.tcp⟩] := by
  refine ⟨by decide, by decide, by decide, by decide⟩

/--
Claim C5 amended: an inverted range token `A-B` with `A > B` expands to
the empty list instead of raising.  When the whole expression is a single
inverted range the resulting port list is empty, `main` rejects it with
its empty-list check, and no task is dispatched — but not through an
`InvalidPortFormat` failure of `parse_ports`; and when valid tokens
accompany the inverted range, the inverted range is silently dropped and
the scan proceeds with the remaining ports.
-/
theorem C5_inverted_range (a b : Int) (hba : b < a)
    (u v : List Char)
    (hu : pyIntChars? u = some a) (hv : pyIntChars? v = some b)
    (hnu : '-' ∉ u) (hnv : '-' ∉ v) (hcu : ',' ∉ u) (hcv : ',' ∉ v) :
    pyRange a (b + 1) = []
    ∧ parse_ports (String.mk (u ++ '-' :: v)) = some []
    ∧ (∀ prog ip_str : String,
        main_tasks [prog, ip_str, String.mk (u ++ '-' :: v)] = [])
    ∧ parse_ports (r"80,100-50") = some [80] := by
  have hempty : pyRange a (b + 1) = [] := by
    unfold pyRange
    have : (b + 1 - a).toNat = 0 := by omega
    rw [this]
    rfl
  have htok : parse_ports (String.mk (u ++ '-' :: v)) = some [] := by
    rw [parse_ports_range_token u v a b hu hv hnu hnv hcu hcv, hempty]
  refine ⟨hempty, htok, ?_, by decide⟩
  intro prog ip_str
  show main_tasks (prog :: ip_str :: [String.mk (u ++ '-' :: v)]) = []
  unfold main_tasks
  by_cases hip : (parse_ip_range ip_str).isEmpty
  · simp [hip]
  · simp [hip, htok]

/-- Claim C5 amended, instantiated at the inverted range `100-50` against
target 127.0.0.1: the range expands to nothing, the port list is empty,
and no task is dispatched. -/
theorem C5_inverted_range_witness :
    pyRange 100 (50 + 1) = []
    ∧ parse_ports (String.mk (['1', '0', '0'] ++ '-' :: ['5', '0'])) = some []
    ∧ main_tasks
        [r"saoip.py", r"127.0.0.1", String.mk (['1', '0', '0'] ++ '-' :: ['5', '0'])]
        = [] := by
  have h := C5_inverted_range 100 50 (by decide) ['1', '0', '0'] ['5', '0']
    (by decide) (by decide) (by decide) (by decide) (by decide) (by decide)
  exact ⟨h.1, h.2.1, h.2.2.1 (r"saoip.py") (r"127.0.0.1")⟩

/-! ### Lemmas about address resolution -/

theorem pyOctet_digits (p : List Char) (n : Nat) (h : pyOctet? p = some n) :
    ∀ c ∈ p, c.isDigit = true := by
  intro c hc
  unfold pyOctet? at h
  by_cases h1 : isDigits p ∧ p.length ≤ 3
  · have := h1.1
    unfold isDigits at this
    have hall := (Bool.and_eq_true _ _).mp this |>.2
    exact (List.all_eq_true.mp hall) c hc
  · rw [if_neg h1] at h
    exact absurd h (by simp)

theorem prefixLen_digits (p : List Char) (n : Nat) (h : prefixLen? p = some n) :
    ∀ c ∈ p, c.isDigit = true := by
  intro c hc
  unfold prefixLen? at h
  by_cases h1 : isDigits p ∧ digitsVal p ≤ 32
  · have := h1.1
    unfold isDigits at this
    have hall := (Bool.and_eq_true _ _).mp this |>.2
    exact (List.all_eq_true.mp hall) c hc
  · rw [if_neg h1] at h
    exact absurd h (by simp)

theorem ip_address_chars_four (cs : List Char) (ip : Nat)
    (h : ip_address_chars? cs = some ip) :
    ∃ p1 p2 p3 p4 : List Char, splitOnChar '.' cs = [p1, p2, p3, p4] := by
  unfold ip_address_chars? at h
  cases hs : splitOnChar '.' cs with
  | nil =>
    rw [hs] at h
    exact Option.noConfusion (show (none : Option Nat) = some ip from h)
  | cons q1 t1 =>
    cases t1 with
    | nil =>
      rw [hs] at h
      exact Option.noConfusion (show (none : Option Nat) = some ip from h)
    | cons q2 t2 =>
      cases t2 with
      | nil =>
        rw [hs] at h
        exact Option.noConfusion (show (none : Option Nat) = some ip from h)
      | cons q3 t3 =>
        cases t3 with
        | nil =>
          rw [hs] at h
          exact Option.noConfusion (show (none : Option Nat) = some ip from h)
        | cons q4 t4 =>
          cases t4 with
          | nil => exact ⟨q1, q2, q3, q4, rfl⟩
          | cons q5 t5 =>
            rw [hs] at h
            exact Option.noConfusion (show (none : Option Nat) = some ip from h)

theorem ip_address_chars (cs : List Char) (ip : Nat)
    (h : ip_address_chars? cs = some ip) :
    ∀ c ∈ cs, c.isDigit = true ∨ c = '.' := by
  intro c hc
  rcases mem_splitOnChar_of_mem '.' cs c hc with h1 | ⟨p, hp, hcp⟩
  · exact Or.inr h1
  · left
    obtain ⟨p1, p2, p3, p4, hs⟩ := ip_address_chars_four cs ip h
    unfold ip_address_chars? at h
    rw [hs] at h hp
    have h' : (match pyOctet? p1, pyOctet? p2, pyOctet? p3, pyOctet? p4 with
      | some a, some b, some c, some d => some (((a * 256 + b) * 256 + c) * 256 + d)
      | _, _, _, _ => none) = some ip := h
    have hoct : (∃ a, pyOctet? p1 = some a) ∧ (∃ a, pyOctet? p2 = some a)
        ∧ (∃ a, pyOctet? p3 = some a) ∧ (∃ a, pyOctet? p4 = some a) := by
      cases h1 : pyOctet? p1 <;> rw [h1] at h' <;>
        cases h2 : pyOctet? p2 <;> rw [h2] at h' <;>
          cases h3 : pyOctet? p3 <;> rw [h3] at h' <;>
            cases h4 : pyOctet? p4 <;> rw [h4] at h' <;>
              first
                | exact ⟨⟨_, rfl⟩, ⟨_, rfl⟩, ⟨_, rfl⟩, ⟨_, rfl⟩⟩
                | exact Option.noConfusion
                    (show (none : Option Nat) = some ip from h')
    simp only [List.mem_cons, List.not_mem_nil, or_false] at hp
    rcases hp with rfl | rfl | rfl | rfl
    · obtain ⟨a, ha⟩ := hoct.1
      exact pyOctet_digits p a ha c hcp
    · obtain ⟨a, ha⟩ := hoct.2.1
      exact pyOctet_digits p a ha c hcp
    · obtain ⟨a, ha⟩ := hoct.2.2.1
      exact pyOctet_digits p a ha c hcp
    · obtain ⟨a, ha⟩ := hoct.2.2.2
      exact pyOctet_digits p a ha c hcp

theorem slash_not_mem_of_address (cs : List Char) (ip : Nat)
    (h : ip_address_chars? cs = some ip) : '/' ∉ cs := by
  intro hm
  rcases ip_address_chars cs ip h '/' hm with h1 | h1
  · exact absurd h1 (by decide)
  · exact absurd h1 (by decide)

theorem slash_not_mem_of_prefixLen (p : List Char) (n : Nat)
    (h : prefixLen? p = some n) : '/' ∉ p := by
  intro hm
  exact absurd (prefixLen_digits p n h '/' hm) (by decide)

/-- A plain valid address is parsed by `ip_network(·, strict=False)` as
its own /32 network (so `parse_ip_range` never reaches its
`ip_address` fallback for it). -/
theorem ip_network_of_address (cs : List Char) (ip : Nat)
    (h : ip_address_chars? cs = some ip) :
    ip_network_chars? cs = some (ip, 32) := by
  unfold ip_network_chars?
  rw [splitOnChar_of_not_mem '/' cs (slash_not_mem_of_address cs ip h)]
  show (ip_address_chars? cs).map (fun ip => (ip, 32)) = some (ip, 32)
  rw [h]
  rfl

theorem parse_ip_range_single (s : String) (ip : Nat)
    (h : ip_address? s = some ip) : parse_ip_range s = [ip] := by
  unfold parse_ip_range ip_network?
  rw [ip_network_of_address s.data ip h]
  rfl

theorem hosts_mem (net pl : Nat) (hpl : pl ≤ 30) (a : Nat) :
    a ∈ hosts net pl ↔
      (net ≤ a ∧ a ≤ net + 2 ^ (32 - pl) - 1) ∧ a ≠ net ∧ a ≠ net + 2 ^ (32 - pl) - 1 := by
  have h1 : ¬ pl = 32 := by omega
  have h2 : ¬ pl = 31 := by omega
  have hsize : 4 ≤ 2 ^ (32 - pl) := by
    calc (4 : Nat) = 2 ^ 2 := rfl
    _ ≤ 2 ^ (32 - pl) := Nat.pow_le_pow_right (by omega) (by omega)
  unfold hosts
  rw [if_neg h1, if_neg h2, List.mem_map]
  constructor
  · rintro ⟨i, hi, rfl⟩
    rw [List.mem_range] at hi
    omega
  · rintro ⟨⟨hlo, hhi⟩, hne1, hne2⟩
    refine ⟨a - net - 1, ?_, by omega⟩
    rw [List.mem_range]
    omega

theorem hosts_length (net pl : Nat) (hpl : pl ≤ 30) :
    (hosts net pl).length = 2 ^ (32 - pl) - 2 := by
  have h1 : ¬ pl = 32 := by omega
  have h2 : ¬ pl = 31 := by omega
  unfold hosts
  rw [if_neg h1, if_neg h2, List.length_map, List.length_range]

theorem hosts_sorted (net pl : Nat) : List.Sorted (· < ·) (hosts net pl) := by
  unfold hosts
  by_cases h1 : pl = 32
  · rw [if_pos h1]; simp
  · rw [if_neg h1]
    by_cases h2 : pl = 31
    · rw [if_pos h2]; simp
    · rw [if_neg h2]
      refine List.Pairwise.map (fun i : Nat => net + 1 + i) ?_ (List.sorted_lt_range _)
      intro i j hij
      show net + 1 + i < net + 1 + j
      omega

/--
Claim C2: a valid single address resolves to the one-element list holding
exactly that address; a CIDR block with host count > 2 resolves to every
address of the block except the network and broadcast addresses, in
ascending numeric order (concretely `10.0.0.0/30` gives
`[10.0.0.1, 10.0.0.2]`); a /31 resolves to both of its addresses and a
/32 to its single address.
-/
theorem C2_address_resolution
    (s : String) (ip : Nat) (t : String) (net pl : Nat)
    (hs : ip_address? s = some ip)
    (ht : ip_network? t = some (net, pl)) :
    parse_ip_range s = [ip]
    ∧ (pl ≤ 30 →
        (∀ a : Nat, a ∈ parse_ip_range t ↔
          ((net ≤ a ∧ a ≤ net + 2 ^ (32 - pl) - 1)
            ∧ a ≠ net ∧ a ≠ net + 2 ^ (32 - pl) - 1))
        ∧ (parse_ip_range t).length = 2 ^ (32 - pl) - 2
        ∧ List.Sorted (· < ·) (parse_ip_range t))
    ∧ (pl = 31 → parse_ip_range t = [net, net + 1])
    ∧ (pl = 32 → parse_ip_range t = [net])
    ∧ parse_ip_range (r"10.0.0.0/30") = [167772161, 167772162] := by
  have hparse : parse_ip_range t = hosts net pl := by
    unfold parse_ip_range
    rw [ht]
  refine ⟨parse_ip_range_single s ip hs, ?_, ?_, ?_, by decide⟩
  · intro hpl
    rw [hparse]
    exact ⟨fun a => hosts_mem net pl hpl a, hosts_length net pl hpl,
      hosts_sorted net pl⟩
  · intro hpl
    rw [hparse]
    unfold hosts
    rw [if_neg (by omega), if_pos hpl]
  · intro hpl
    rw [hparse]
    unfold hosts
    rw [if_pos hpl]

/-- Claim C2, instantiated: `192.0.2.7` resolves to itself alone, and
`10.0.0.0/30` resolves to its two usable hosts `10.0.0.1` and
`10.0.0.2`, of count `2^2 - 2`. -/
theorem C2_address_resolution_witness :
    parse_ip_range (r"192.0.2.7") = [3221225991]
    ∧ (parse_ip_range (r"10.0.0.0/30")).length = 2 ^ (32 - 30) - 2
    ∧ parse_ip_range (r"10.0.0.0/30") = [167772161, 167772162] := by
  have h := C2_address_resolution (r"192.0.2.7") 3221225991 (r"10.0.0.0/30")
    167772160 30 (by decide) (by decide)
  exact ⟨h.1, (h.2.1 (by decide)).2.1, h.2.2.2.2⟩

/--
Claim C6: a target string that is neither a valid individual address nor
a valid CIDR block makes `parse_ip_range` fail (it reports the
invalid-address error and yields the empty list), and `main` then aborts
the whole invocation before building any task, in both the ICMP and the
TCP mode.
-/
theorem C6_invalid_address (s : String)
    (hn : ip_network? s = none) (ha : ip_address? s = none) :
    parse_ip_range s = []
    ∧ (∀ prog : String, main_tasks [prog, s] = [])
    ∧ (∀ prog ports : String, main_tasks [prog, s, ports] = []) := by
  have hparse : parse_ip_range s = [] := by
    unfold parse_ip_range
    rw [hn, ha]
  refine ⟨hparse, ?_, ?_⟩
  · intro prog
    show main_tasks (prog :: s :: []) = []
    unfold main_tasks
    simp [hparse]
  · intro prog ports
    show main_tasks (prog :: s :: [ports]) = []
    unfold main_tasks
    simp [hparse]

/-- Claim C6, instantiated at the target `"not-an-ip"`: both parses fail,
the address list is empty, and no task is dispatched in either mode. -/
theorem C6_invalid_address_witness :
    parse_ip_range (r"not-an-ip") = []
    ∧ main_tasks [r"saoip.py", r"not-an-ip"] = []
    ∧ main_tasks [r"saoip.py", r"not-an-ip", r"80"] = [] := by
  have h := C6_invalid_address (r"not-an-ip") (by decide) (by decide)
  exact ⟨h.1, h.2.1 (r"saoip.py"), h.2.2 (r"saoip.py") (r"80")⟩

/--
Claim C10: a target `address/prefix` whose address has bits set below the
prefix boundary is not rejected — `ip_network(..., strict=False)` clears
the host bits — and the expression resolves to the host addresses of the
enclosing network (so `192.168.1.1/24` resolves to the hosts of
`192.168.1.0/24`).
-/
theorem C10_strict_false (aStr pStr : String) (ip pl : Nat)
    (ha : ip_address? aStr = some ip) (hp : prefixLen? pStr.data = some pl) :
    ip_network? (aStr ++ r"/" ++ pStr) = some (maskAddr ip pl, pl)
    ∧ parse_ip_range (aStr ++ r"/" ++ pStr) = hosts (maskAddr ip pl) pl := by
  have hnet : ip_network? (aStr ++ r"/" ++ pStr) = some (maskAddr ip pl, pl) := by
    unfold ip_network? ip_network_chars?
    have hdata : (aStr ++ r"/" ++ pStr).data = aStr.data ++ '/' :: pStr.data := by
      simp [String.data_append]
    rw [hdata, splitOnChar_append,
      splitOnChar_of_not_mem '/' aStr.data (slash_not_mem_of_address aStr.data ip ha),
      splitOnChar_of_not_mem '/' pStr.data (slash_not_mem_of_prefixLen pStr.data pl hp)]
    show (match ip_address_chars? aStr.data, prefixLen? pStr.data with
      | some ip, some pl => some (maskAddr ip pl, pl)
      | _, _ => none) = some (maskAddr ip pl, pl)
    rw [show ip_address_chars? aStr.data = some ip from ha, hp]
  refine ⟨hnet, ?_⟩
  unfold parse_ip_range
  rw [hnet]

set_option maxRecDepth 4096 in
/-- Claim C10, instantiated at `192.168.1.1/24`: the expression is
accepted, the host bits are cleared to `192.168.1.0`, and the result is
the 254 hosts `192.168.1.1 .. 192.168.1.254` of the enclosing /24. -/
theorem C10_strict_false_witness :
    ip_network? (r"192.168.1.1" ++ r"/" ++ r"24") = some (maskAddr 3232235777 24, 24)
    ∧ parse_ip_range (r"192.168.1.1" ++ r"/" ++ r"24") = hosts (maskAddr 3232235777 24) 24
    ∧ maskAddr 3232235777 24 = 3232235776
    ∧ hosts 3232235776 24 = (List.range 254).map (fun i => 3232235777 + i) := by
  have h := C10_strict_false (r"192.168.1.1") (r"24") 3232235777 24
    (by decide) (by decide)
  exact ⟨h.1, h.2, by decide, by decide⟩

/-! ### Lemmas about probes, scans and task construction -/

theorem list_filterMap_guard {α β : Type} (l : List α) (p : α → Bool) (g : α → β) :
    l.filterMap (fun x => if p x then some (g x) else none)
      = (l.filter p).map g := by
  induction l with
  | nil => rfl
  | cons x rest ih =>
    by_cases hx : p x
    · simp [List.filterMap_cons, List.filter_cons, hx, ih]
    · simp [List.filterMap_cons, List.filter_cons, hx, ih]

theorem scan_icmp_worker_eq (ip : Nat) (env : PingEnv) :
    scan_icmp_worker ip env
      = if (ping_ip env).1 then some (ip, (ping_ip env).2) else none := rfl

theorem scan_tcp_worker_eq (ip : Nat) (port : Int) (env : TcpEnv) :
    scan_tcp_worker ip port env
      = if (tcp_connect env).1 then some (ip, port, (tcp_connect env).2) else none := rfl

theorem scan_icmp_surfaces (ips : List Nat) (envOf : Nat → PingEnv) :
    scan_icmp ips envOf
      = (ips.filter (fun ip => (ping_ip (envOf ip)).1)).map
          (fun ip => (ip, (ping_ip (envOf ip)).2)) := by
  unfold scan_icmp
  rw [show (fun ip => scan_icmp_worker ip (envOf ip))
      = (fun ip => if (ping_ip (envOf ip)).1
          then some (ip, (ping_ip (envOf ip)).2) else none) from rfl]
  exact list_filterMap_guard ips _ _

theorem scan_tcp_surfaces (ips : List Nat) (ports : List Int)
    (envOf : Nat × Int → TcpEnv) :
    scan_tcp ips ports envOf
      = ((scan_tcp_pairs ips ports).filter (fun q => (tcp_connect (envOf q)).1)).map
          (fun q => (q.1, q.2, (tcp_connect (envOf q)).2)) := by
  unfold scan_tcp
  rw [show (fun q : Nat × Int => scan_tcp_worker q.1 q.2 (envOf q))
      = (fun q : Nat × Int => if (tcp_connect (envOf q)).1
          then some (q.1, q.2, (tcp_connect (envOf q)).2) else none) from rfl]
  exact list_filterMap_guard (scan_tcp_pairs ips ports) _ _

theorem scan_icmp_skip_raising (ips : List Nat) (envOf : Nat → PingEnv) (ip0 : Nat)
    (hr : (envOf ip0).raises = true) :
    scan_icmp ips envOf = scan_icmp (ips.filter (fun ip => ip != ip0)) envOf := by
  induction ips with
  | nil => rfl
  | cons ip rest ih =>
    by_cases hip : ip = ip0
    · subst hip
      have hw : scan_icmp_worker ip (envOf ip) = none := by
        rw [scan_icmp_worker_eq]
        unfold ping_ip
        rw [hr]
        rfl
      simp only [scan_icmp, List.filterMap_cons, hw, List.filter_cons,
        bne_self_eq_false, Bool.false_eq_true, if_false]
      exact ih
    · have hne : (ip != ip0) = true := bne_iff_ne.mpr hip
      simp only [scan_icmp, List.filterMap_cons, List.filter_cons, hne, if_true]
      cases scan_icmp_worker ip (envOf ip) with
      | none => exact ih
      | some out => exact congrArg (fun l => out :: l) ih

/--
Claim C7 counterexample: the claim says a probe that does not succeed
returns `(false, 0)`; on the code both `ping_ip` and `tcp_connect`
return `(False, None)` on failure — the latency slot holds no value at
all, not the value 0 — here shown for a non-zero ping return code and a
non-zero `connect_ex` result.
-/
theorem C7_counterexample :
    ping_ip ⟨false, 1, 0, 0⟩ = (false, none)
    ∧ tcp_connect ⟨false, 111, 0, 0⟩ = (false, none)
    ∧ ((false, none) : Bool × Option Rat) ≠ (false, some 0) := by
  refine ⟨rfl, rfl, by decide⟩

/--
Claim C7 amended: on any failure — exception raised, timeout, non-zero
return code or `connect_ex` error — both probe strategies return
`(False, None)`; on success each returns `(True, elapsedMillis)` where
`elapsedMillis` is the measured wall-clock interval times 1000.
-/
theorem C7_probe_results (pe : PingEnv) (te : TcpEnv) :
    ((ping_ip pe).1 = false → ping_ip pe = (false, none))
    ∧ ((ping_ip pe).1 = true →
        ping_ip pe = (true, some ((pe.endTime - pe.startTime) * 1000)))
    ∧ ((tcp_connect te).1 = false → tcp_connect te = (false, none))
    ∧ ((tcp_connect te).1 = true →
        tcp_connect te = (true, some ((te.endTime - te.startTime) * 1000))) := by
  unfold ping_ip tcp_connect
  by_cases h1 : pe.raises = true <;> by_cases h2 : pe.returncode = 0 <;>
    by_cases h3 : te.raises = true <;> by_cases h4 : te.connectResult = 0 <;>
      simp [h1, h2, h3, h4]

/-- Claim C7 amended, instantiated: a failed ping and a refused connect
both yield `(False, None)`; a successful ping and connect yield the
measured interval in milliseconds. -/
theorem C7_probe_results_witness :
    ping_ip ⟨false, 1, 0, 2⟩ = (false, none)
    ∧ ping_ip ⟨false, 0, 0, 2⟩ = (true, some (((2 : Rat) - 0) * 1000))
    ∧ tcp_connect ⟨false, 111, 0, 3⟩ = (false, none)
    ∧ tcp_connect ⟨false, 0, 0, 3⟩ = (true, some (((3 : Rat) - 0) * 1000)) := by
  refine ⟨(C7_probe_results ⟨false, 1, 0, 2⟩ ⟨false, 111, 0, 3⟩).1 (by decide),
    (C7_probe_results ⟨false, 0, 0, 2⟩ ⟨false, 111, 0, 3⟩).2.1 (by decide),
    (C7_probe_results ⟨false, 1, 0, 2⟩ ⟨false, 111, 0, 3⟩).2.2.1 (by decide),
    (C7_probe_results ⟨false, 1, 0, 2⟩ ⟨false, 0, 0, 3⟩).2.2.2 (by decide)⟩

/--
Claim C9: `ping_ip` and `tcp_connect` never propagate an exception —
both bodies sit inside a `try`/`except Exception` whose handler returns
`(False, None)`, so a raising environment yields a failure result with
first component `False` (the embedding is a total function: there is no
escaping-exception outcome at all); consequently a raising probe
contributes nothing to the scan output and leaves every other task's
result unchanged — the scan behaves exactly as if the raising task's
address were absent.
-/
theorem C9_no_exception_propagation (pe : PingEnv) (te : TcpEnv)
    (ips : List Nat) (envOf : Nat → PingEnv) (ip0 : Nat) :
    (pe.raises = true → ping_ip pe = (false, none))
    ∧ (te.raises = true → tcp_connect te = (false, none))
    ∧ ((envOf ip0).raises = true →
        scan_icmp ips envOf = scan_icmp (ips.filter (fun ip => ip != ip0)) envOf) := by
  refine ⟨?_, ?_, ?_⟩
  · intro h
    unfold ping_ip
    rw [h]
    rfl
  · intro h
    unfold tcp_connect
    rw [h]
    rfl
  · intro h
    exact scan_icmp_skip_raising ips envOf ip0 h

/-- Claim C9, instantiated: probes whose environments raise return
`(False, None)`, and an ICMP scan of `[5, 6]` in which the probe of
address 5 raises produces the same output as the scan without address 5. -/
theorem C9_no_exception_propagation_witness :
    ping_ip ⟨true, 0, 0, 0⟩ = (false, none)
    ∧ tcp_connect ⟨true, 0, 0, 0⟩ = (false, none)
    ∧ scan_icmp [5, 6] (fun _ => ⟨true, 0, 0, 0⟩)
        = scan_icmp ([5, 6].filter (fun ip => ip != 5)) (fun _ => ⟨true, 0, 0, 0⟩) := by
  have h := C9_no_exception_propagation ⟨true, 0, 0, 0⟩ ⟨true, 0, 0, 0⟩
    [5, 6] (fun _ => ⟨true, 0, 0, 0⟩) 5
  exact ⟨h.1 rfl, h.2.1 rfl, h.2.2 rfl⟩

/--
Claim C8 counterexample: the claim says unreachable results are dropped
from output but "counted internally for diagnostics"; the workers
(saoip.py lines 160-163 and 174-177) keep no count — the entire state a
scan leaves behind is its printed output, and a run with one unreachable
target leaves a state identical to a run with two unreachable targets
(both print nothing), so the number of unreachable results is recorded
nowhere.
-/
theorem C8_counterexample :
    scan_icmp [1] (fun _ => ⟨false, 1, 0, 0⟩) = []
    ∧ scan_icmp [1, 2] (fun _ => ⟨false, 1, 0, 0⟩) = []
    ∧ scan_icmp [1] (fun _ => ⟨false, 1, 0, 0⟩)
        = scan_icmp [1, 2] (fun _ => ⟨false, 1, 0, 0⟩)
    ∧ (1 : Nat) ≠ 2 := by
  refine ⟨by decide, by decide, by decide, by decide⟩

/--
Claim C8 amended: only results with `reachable == true` are surfaced —
each scan's output is exactly the reachable tasks with their measured
latencies, in order; results with `reachable == false` are silently
dropped and leave no trace in the program's state (no diagnostic count of
them is kept).
-/
theorem C8_only_reachable_surfaced (ips : List Nat) (envOf : Nat → PingEnv)
    (tips : List Nat) (ports : List Int) (tenvOf : Nat × Int → TcpEnv) :
    scan_icmp ips envOf
      = (ips.filter (fun ip => (ping_ip (envOf ip)).1)).map
          (fun ip => (ip, (ping_ip (envOf ip)).2))
    ∧ scan_tcp tips ports tenvOf
      = ((scan_tcp_pairs tips ports).filter (fun q => (tcp_connect (tenvOf q)).1)).map
          (fun q => (q.1, q.2, (tcp_connect (tenvOf q)).2)) :=
  ⟨scan_icmp_surfaces ips envOf, scan_tcp_surfaces tips ports tenvOf⟩

/-- Claim C8 amended, instantiated: scanning `[1, 2]` where only address
2's probe succeeds surfaces exactly address 2 with its latency, and a TCP
scan of `[7] x [80]` with a refused connect surfaces nothing. -/
theorem C8_only_reachable_surfaced_witness :
    scan_icmp [1, 2]
        (fun ip => if ip = 2 then ⟨false, 0, 0, 1⟩ else ⟨false, 1, 0, 0⟩)
      = ([1, 2].filter
          (fun ip => (ping_ip (if ip = 2 then ⟨false, 0, 0, 1⟩ else ⟨false, 1, 0, 0⟩)).1)).map
          (fun ip => (ip, (ping_ip (if ip = 2 then ⟨false, 0, 0, 1⟩ else ⟨false, 1, 0, 0⟩)).2))
    ∧ scan_tcp [7] [80] (fun _ => ⟨false, 111, 0, 0⟩)
      = ((scan_tcp_pairs [7] [80]).filter
          (fun q => (tcp_connect ((fun _ => (⟨false, 111, 0, 0⟩ : TcpEnv)) q)).1)).map
          (fun q => (q.1, q.2, (tcp_connect ((fun _ => (⟨false, 111, 0, 0⟩ : TcpEnv)) q)).2)) := by
  have h := C8_only_reachable_surfaced [1, 2]
    (fun ip => if ip = 2 then ⟨false, 0, 0, 1⟩ else ⟨false, 1, 0, 0⟩)
    [7] [80] (fun _ => ⟨false, 111, 0, 0⟩)
  exact ⟨h.1, h.2⟩

theorem scan_icmp_tasks_length (ips : List Nat) :
    (scan_icmp_tasks ips).length = ips.length := by
  unfold scan_icmp_tasks
  rw [List.length_map]

theorem scan_icmp_tasks_addrs (ips : List Nat) :
    (scan_icmp_tasks ips).map (fun t => t.addr) = ips := by
  unfold scan_icmp_tasks
  rw [List.map_map]
  exact List.map_id ips

theorem scan_icmp_tasks_kinds (ips : List Nat) :
    ∀ t ∈ scan_icmp_tasks ips, t.kind = ProbeKind.icmp := by
  intro t ht
  unfold scan_icmp_tasks at ht
  rw [List.mem_map] at ht
  obtain ⟨ip, hip, rfl⟩ := ht
  rfl

theorem scan_tcp_tasks_length (ips : List Nat) (ports : List Int) :
    (scan_tcp_tasks ips ports).length = ips.length * ports.length := by
  induction ips with
  | nil => simp [scan_tcp_tasks]
  | cons ip rest ih =>
    unfold scan_tcp_tasks at ih ⊢
    rw [List.flatMap_cons, List.length_append, List.length_map, ih,
      List.length_cons, Nat.succ_mul, Nat.add_comm]

theorem scan_tcp_tasks_pairs (ips : List Nat) (ports : List Int) :
    (scan_tcp_tasks ips ports).map (fun t => (t.addr, t.port))
      = ips.flatMap (fun a => ports.map (fun p => (a, some p))) := by
  unfold scan_tcp_tasks
  rw [List.map_flatMap]
  congr 1
  funext a
  rw [List.map_map]
  rfl

theorem scan_tcp_tasks_kinds (ips : List Nat) (ports : List Int) :
    ∀ t ∈ scan_tcp_tasks ips ports, t.kind = ProbeKind.tcp := by
  intro t ht
  unfold scan_tcp_tasks at ht
  rw [List.mem_flatMap] at ht
  obtain ⟨a, ha, ht⟩ := ht
  rw [List.mem_map] at ht
  obtain ⟨p, hp, rfl⟩ := ht
  rfl

/--
Claim C1: with no port expression, `main` submits exactly one task per
resolved address — the task list's addresses are the resolved address
list itself — and every task runs the reachability (ICMP) worker; with a
port expression resolving to `ports`, `main` submits exactly one task per
(address, port) pair — the full cartesian product, of size
`|addresses| * |ports|` — and every task runs the connect (TCP) worker.
-/
theorem C1_task_construction (prog ip_str port_str : String) (ports : List Int)
    (hp : parse_ports port_str = some ports) :
    ((main_tasks [prog, ip_str]).length = (parse_ip_range ip_str).length
      ∧ (main_tasks [prog, ip_str]).map (fun t => t.addr) = parse_ip_range ip_str
      ∧ ∀ t ∈ main_tasks [prog, ip_str], t.kind = ProbeKind.icmp)
    ∧ ((main_tasks [prog, ip_str, port_str]).length
        = (parse_ip_range ip_str).length * ports.length
      ∧ (main_tasks [prog, ip_str, port_str]).map (fun t => (t.addr, t.port))
          = (parse_ip_range ip_str).flatMap (fun a => ports.map (fun p => (a, some p)))
      ∧ ∀ t ∈ main_tasks [prog, ip_str, port_str], t.kind = ProbeKind.tcp) := by
  have hicmp : main_tasks [prog, ip_str]
      = if (parse_ip_range ip_str).isEmpty then []
        else scan_icmp_tasks (parse_ip_range ip_str) := rfl
  have htcp0 : main_tasks [prog, ip_str, port_str]
      = if (parse_ip_range ip_str).isEmpty then []
        else match parse_ports port_str with
          | none => []
          | some ps => if ps.isEmpty then []
              else scan_tcp_tasks (parse_ip_range ip_str) ps := rfl
  have htcp : main_tasks [prog, ip_str, port_str]
      = if (parse_ip_range ip_str).isEmpty then []
        else if ports.isEmpty then []
        else scan_tcp_tasks (parse_ip_range ip_str) ports := by
    rw [htcp0, hp]
  by_cases hemp : (parse_ip_range ip_str).isEmpty
  · have hnil : parse_ip_range ip_str = [] := List.isEmpty_iff.mp hemp
    rw [hicmp, htcp, if_pos hemp, if_pos hemp, hnil]
    refine ⟨⟨rfl, rfl, by intro t ht; cases ht⟩, by simp, rfl, by intro t ht; cases ht⟩
  · rw [hicmp, htcp, if_neg hemp, if_neg hemp]
    refine ⟨⟨scan_icmp_tasks_length _, scan_icmp_tasks_addrs _,
      scan_icmp_tasks_kinds _⟩, ?_⟩
    by_cases hpe : ports.isEmpty
    · have hpnil : ports = [] := List.isEmpty_iff.mp hpe
      rw [if_pos hpe, hpnil]
      refine ⟨by simp, ?_, by intro t ht; cases ht⟩
      rw [List.map_nil]
      induction parse_ip_range ip_str with
      | nil => rfl
      | cons a rest ih => rw [List.flatMap_cons, List.map_nil, List.nil_append]; exact ih
    · rw [if_neg hpe]
      exact ⟨scan_tcp_tasks_length _ _, scan_tcp_tasks_pairs _ _,
        scan_tcp_tasks_kinds _ _⟩

/-- Claim C1, instantiated at target `10.0.0.0/30` (two resolved hosts):
the ICMP invocation submits 2 tasks, one per host; the TCP invocation
with ports `"80,443"` submits `2 x 2 = 4` tasks covering the full
(address, port) product. -/
theorem C1_task_construction_witness :
    (main_tasks [r"saoip.py", r"10.0.0.0/30"]).length
        = (parse_ip_range (r"10.0.0.0/30")).length
    ∧ (main_tasks [r"saoip.py", r"10.0.0.0/30", r"80,443"]).length
        = (parse_ip_range (r"10.0.0.0/30")).length * ([(80 : Int), 443]).length := by
  have h := C1_task_construction (r"saoip.py") (r"10.0.0.0/30") (r"80,443")
    [80, 443] (by decide)
  exact ⟨h.1.1, h.2.1⟩

end Saoip
